import Mathlib

/-!
Verification development for the AutoImprover repository
(`autoimprover.py`). The Python source is shallowly embedded: pure
functions become Lean functions, the external world (OpenAI completion
calls, the file system, subprocess outcomes, `random.choice`) is
supplied by an explicit environment, and the `main` control loop is a
deterministic step machine over explicit program points of `main`.
-/

namespace AutoImprover

/-! ## Sandbox runner: `run_simulation` (autoimprover.py lines 110-121)

The child-process outcome is abstracted: either the process ran and
exited with a return code and captured stderr text, or it exceeded the
5-second wall-clock timeout (`subprocess.TimeoutExpired`), or the
launch itself raised an exception.  `run_simulation` returns `none`
for "no errors" and `some detail` for a failure detail, exactly
mirroring the Python returns. -/

inductive SimOutcome where
  | exited (returncode : Int) (stderrText : String)
  | timedOut
  | launchError (msg : String)
deriving Repr, DecidableEq

def run_simulation : SimOutcome → Option String
  | .exited rc err => if rc ≠ 0 then some err else none
  | .timedOut => none
  | .launchError e => some e

/-! ## `call_openai_api` (lines 82-97)

The network interaction is abstracted as an `Except`: `.ok content` is
a successful completion, `.error e` is any raised exception.  The
Python function catches every exception, logs it, and returns `None`;
the log side effect is not modelled. -/

def call_openai_api (apiResult : Except String String) : Option String :=
  match apiResult with
  | .ok content => some content
  | .error _ => none

/-! ## Character-list string primitives

Python string operations are embedded over the character list of a
`String` (Python slices and scans by code point).  These replace the
corresponding core `String` functions so that every definition in this
file evaluates inside the kernel. -/

def startsWithL : List Char → List Char → Bool
  | [], _ => true
  | _ :: _, [] => false
  | p :: ps, c :: cs => p = c && startsWithL ps cs

def occursL (pat : List Char) : List Char → Bool
  | [] => startsWithL pat []
  | c :: cs => startsWithL pat (c :: cs) || occursL pat cs

/-- Python `s.startswith(pat)`. -/
def strStartsWith (s pat : String) : Bool :=
  startsWithL pat.toList s.toList

/-- Python `s[:n]`. -/
def strTake (s : String) (n : Nat) : String :=
  String.mk (s.toList.take n)

/-- Python `s[n:]`. -/
def strDrop (s : String) (n : Nat) : String :=
  String.mk (s.toList.drop n)

/-- Python `s.lower()` (the program only compares ASCII sentinels). -/
def strLower (s : String) : String :=
  String.mk (s.toList.map Char.toLower)

/-- Python falsity of a string: `not s` is true exactly when `s` is empty. -/
def strIsEmpty (s : String) : Bool :=
  s.toList.isEmpty

/-- Python `sep.join(parts)`. -/
def strIntercalate (sep : String) : List String → String
  | [] => ""
  | [a] => a
  | a :: r => a ++ sep ++ strIntercalate sep r

/-- Concatenation of a list of strings. -/
def strJoin : List String → String
  | [] => ""
  | a :: r => a ++ strJoin r

/-- First character of a string, if any; used to separate the
harness messages from each other. -/
def strHead (s : String) : Option Char :=
  s.toList.head?

/-! ## Prompt templates and `str.format` (load_prompt / the *_call helpers)

A loaded prompt template is a list of pieces: literal text or a
`\x7bname\x7d` placeholder.  `rawText` is the template text exactly as
loaded from the prompts file; `pyFormat` is the Python
`str.format(key=value, ...)` restricted to templates whose
placeholders all appear among the supplied keyword arguments (the only
case the program exercises; a missing key would raise `KeyError`). -/

inductive Piece where
  | lit (s : String)
  | hole (n : String)
deriving Repr, DecidableEq

def pieceRaw : Piece → String
  | .lit s => s
  | .hole n => "\x7b" ++ n ++ "\x7d"

def rawText (tmpl : List Piece) : String :=
  strJoin (tmpl.map pieceRaw)

def pieceFormat (args : List (String × String)) : Piece → String
  | .lit s => s
  | .hole n => (args.lookup n).getD ("\x7b" ++ n ++ "\x7d")

def pyFormat (tmpl : List Piece) (args : List (String × String)) : String :=
  strJoin (tmpl.map (pieceFormat args))

/-- One request to the generation collaborator: the model identifier,
the prompt text actually sent, and the audit-log file name tag. -/
structure ApiCall where
  model : String
  prompt : String
  tag : String
deriving Repr, DecidableEq

/-- `suggest_new_features` (lines 199-204): formats the template with
`features` (the feature history) and `code` and sends the result. -/
def suggest_new_features_call (tmpl : List Piece) (features code : String) : ApiCall :=
  { model := "gpt-4o-mini"
    prompt := pyFormat tmpl [("features", features), ("code", code)]
    tag := "suggest_features" }

/-- `choose_best_feature` (lines 206-210). -/
def choose_best_feature_call (tmpl : List Piece) (features code : String) : ApiCall :=
  { model := "gpt-4o-mini"
    prompt := pyFormat tmpl [("features", features), ("code", code)]
    tag := "choose_feature" }

/-- `design_feature` (lines 212-216).  The Python body computes
`formatted_prompt = prompt.format(feature=feature, code=code)` and then
passes `prompt` — the unformatted template — to `call_openai_api`
(line 216), leaving `formatted_prompt` unused.  The embedding keeps
the dead binding to mirror the source. -/
def design_feature_call (tmpl : List Piece) (feature code : String) : ApiCall :=
  let _formatted_prompt := pyFormat tmpl [("feature", feature), ("code", code)]
  { model := "gpt-4o-mini"
    prompt := rawText tmpl
    tag := "design_feature" }

/-- `implement_feature` (lines 218-222). -/
def implement_feature_call (tmpl : List Piece) (design code : String) : ApiCall :=
  { model := "gpt-4o-mini"
    prompt := pyFormat tmpl [("plan", design), ("code", code)]
    tag := "implement_feature" }

/-- The four sequential collaborator calls of the `improve` branch of
`main` (lines 389-394), in order, with each call consuming the
response of the previous call through the given oracle. -/
def improveFeatureCalls (oracle : ApiCall → String)
    (tS tC tD tI : List Piece) (featuresHist code : String) : List ApiCall :=
  let c1 := suggest_new_features_call tS featuresHist code
  let new_features := oracle c1
  let c2 := choose_best_feature_call tC new_features code
  let best_feature := oracle c2
  let c3 := design_feature_call tD best_feature code
  let feature_design := oracle c3
  let c4 := implement_feature_call tI feature_design code
  [c1, c2, c3, c4]

/-! ## Test introspection: `get_test_methods` (lines 123-143)

A parsed Python file is modelled as a list of top-level statements;
statements with nested bodies (function and class definitions) carry
their body statements, all other statements are `other`.  A file whose
parse raises `IndentationError` or `SyntaxError` is `parseFailure`.

`ast.walk` yields the nodes of the tree in breadth-first order (it
pops a node off a deque, yields it, and appends its children), and
`get_test_methods` collects, in that order, every `FunctionDef` whose
name starts with `test_` — it does NOT restrict itself to top-level
functions.  Breadth-first traversal is implemented with explicit fuel
(`stmtListSize` of the queue suffices, since each dequeued node costs
one unit more than its children together), so every definition remains
kernel-computable. -/

inductive PyStmt where
  | functionDef (name : String) (body : List PyStmt)
  | classDef (name : String) (body : List PyStmt)
  | other
deriving Repr

def PyStmt.children : PyStmt → List PyStmt
  | .functionDef _ b => b
  | .classDef _ b => b
  | .other => []

mutual
def stmtSize : PyStmt → Nat
  | .functionDef _ b => 1 + stmtListSize b
  | .classDef _ b => 1 + stmtListSize b
  | .other => 1

def stmtListSize : List PyStmt → Nat
  | [] => 0
  | s :: r => stmtSize s + stmtListSize r
end

/-- Breadth-first node traversal of a queue of subtrees, as performed
by `ast.walk`; the fuel argument only serves structural recursion and
never runs out when it is at least `stmtListSize` of the queue. -/
def bfsWalkAux : Nat → List PyStmt → List PyStmt
  | _, [] => []
  | 0, _ :: _ => []
  | fuel + 1, s :: rest => s :: bfsWalkAux fuel (rest ++ s.children)

def bfsWalk (q : List PyStmt) : List PyStmt :=
  bfsWalkAux (stmtListSize q) q

/-- The name collected for a node by the loop body at lines 130-132:
`FunctionDef` nodes whose name starts with `test_`. -/
def testDefName : PyStmt → Option String
  | .functionDef n _ => if strStartsWith n "test_" then some n else none
  | .classDef _ _ => none
  | .other => none

inductive PySource where
  | parseFailure (lineno : Nat)
  | parsed (body : List PyStmt)
deriving Repr

/-- `get_test_methods` (lines 123-143): on a parse error the exception
handlers log and return the empty list; otherwise every `test_`-named
function definition found by `ast.walk` is collected in walk order. -/
def get_test_methods : PySource → List String
  | .parseFailure _ => []
  | .parsed body => (bfsWalk body).filterMap testDefName

/-- Modelled from the spec: "collects every top-level function whose
name begins with the fixed prefix test_, preserving source order" —
the spec-side reading of extraction, for comparison with
`get_test_methods`. -/
def topLevelTestMethods (body : List PyStmt) : List String :=
  body.filterMap testDefName

/-! `cleanTree s` holds when no function definition named `test_*`
occurs anywhere in the subtree rooted at `s` (including `s` itself). -/

mutual
def cleanTree : PyStmt → Bool
  | .functionDef n b => !strStartsWith n "test_" && cleanForest b
  | .classDef _ b => cleanForest b
  | .other => true

def cleanForest : List PyStmt → Bool
  | [] => true
  | s :: r => cleanTree s && cleanForest r
end

/-! ## Test harness: `run_unit_tests` (lines 155-184)

The individual subprocess outcome of each discovered test is supplied by an
environment function.  The return value mirrors the Python function:
`none` when everything passed, otherwise the combined failure text;
the accompanying file rewrite performed through
`remove_problematic_tests` is modelled separately below. -/

inductive TestRunOutcome where
  | finished (returncode : Int) (stderrText : String)
  | timedOut
  | raisedExc (msg : String)
deriving Repr, DecidableEq

/-- The message returned at line 163 when no test methods were
extracted. -/
def unable_msg (filename : String) : String :=
  "Unable to parse test methods from " ++ filename ++
    ". Please check the file for syntax errors."

def testFailureLine (m : String) : TestRunOutcome → Option String
  | .finished rc err => if rc ≠ 0 then some ("Test " ++ m ++ " failed:\n" ++ err) else none
  | .timedOut => none
  | .raisedExc e => some ("Error running test " ++ m ++ ": " ++ e)

def isTimeoutOutcome : TestRunOutcome → Bool
  | .timedOut => true
  | _ => false

def run_unit_tests (src : PySource) (filename : String)
    (outcome : String → TestRunOutcome) : Option String :=
  let test_methods := get_test_methods src
  if test_methods.isEmpty then some (unable_msg filename)
  else
    let failures := test_methods.filterMap (fun m => testFailureLine m (outcome m))
    let removed_tests := test_methods.filter (fun m => isTimeoutOutcome (outcome m))
    if failures.isEmpty && removed_tests.isEmpty then none
    else
      some (strIntercalate "\n"
        (failures ++
          ["Removed tests due to timeout: " ++ strIntercalate ", " removed_tests]))

/-! ## Test file repair: `remove_problematic_tests` (lines 270-282)

For each name the code builds the DOTALL regex
`def \x7btest_name\x7d.*?(?=def|\\Z)` and substitutes every match with
the empty string:
every leftmost occurrence of the literal text `def <name>` starts a
match, the lazy `.*?` extends it to the earliest position where the
literal text `def` follows (lookahead, not consumed) or to the end of
the string, and the match is deleted.  The scan is embedded over
character lists; fuel equal to the remaining length suffices because
each recursive call drops at least one character. -/

/-- The earliest suffix at which the lookahead `(?=def|\Z)` succeeds:
either a suffix starting with the text `def`, or the empty suffix. -/
def lazyEnd : List Char → List Char
  | [] => []
  | c :: cs => if startsWithL ['d', 'e', 'f'] (c :: cs) then c :: cs else lazyEnd cs

/-- One empty-replacement substitution pass of the pattern built from
`name` over the content. -/
def subTestDefAux (name : List Char) : Nat → List Char → List Char
  | _, [] => []
  | 0, s => s
  | fuel + 1, c :: cs =>
    let pat := 'd' :: 'e' :: 'f' :: ' ' :: name
    if startsWithL pat (c :: cs) then
      subTestDefAux name fuel (lazyEnd (List.drop pat.length (c :: cs)))
    else
      c :: subTestDefAux name fuel cs

def subTestDef (name : List Char) (s : List Char) : List Char :=
  subTestDefAux name s.length s

def remove_problematic_tests (content : String) (test_names : List String) : String :=
  String.mk (test_names.foldl (fun acc n => subTestDef n.toList acc) content.toList)

/-- Substring occurrence of `pat` in `s`, used to state when the
`def <name>` text of a name is absent from a file. -/
def occursIn (pat s : String) : Bool :=
  occursL pat.toList s.toList

/-! ## The `main` control loop (lines 284-397) as a step machine

Every interaction with the outside world — a collaborator completion
(`call_openai_api`), a file save succeeding or failing, a sandbox
outcome, `random.choice([True, False])` — is drawn from an environment
`Nat → Ext` indexed by a monotone call clock; the machine consumes one
index per external call.  The `Phase` constructors are program points
of `main`; persisted `sim{v:04d}.py` and `sim{v:04d}_test.py` files
are association lists keyed by version with the newest write first.
`load_prompt` file reads are assumed to succeed (the prompt files are
fixed assets, not claimed behavior). -/

structure Ext where
  api : Except String String
  saveOk : Bool
  sim : SimOutcome
  choice : Bool

inductive HaltReason where
  | initialGenFailed
  | saveSimFailed
  | version1Exhausted
  | saveFixFailed
  | saveTestsFailed
deriving Repr, DecidableEq

inductive Act where
  | genInitial
  | saveSim (fileVersion : Nat) (ok : Bool)
  | runSim (fileVersion : Nat)
  | fixSim (errors : String)
  | rollback (fromV toV : Nat)
  | createTests (fileVersion : Nat)
  | schedule (version : Nat)
  | analyzeCall
  | fixAfterAnalysis (analysis : String)
  | improveCalls
deriving Repr, DecidableEq

inductive Phase where
  | loopTop
  | saveSimPhase
  | simRun (attempts : Nat)
  | fixPhase (attempts : Nat) (errors : String)
  | afterSimLoop (attempts : Nat)
  | createTestsPhase
  | schedulePhase
  | analyzePhase
  | improvePhase
  | halted (r : HaltReason)
  | crashed (msg : String)
deriving Repr, DecidableEq

structure MState where
  phase : Phase
  version : Nat
  code : Option String
  main_feature : String
  simFile : Nat
  maxAttempts : Nat
  files : List (Nat × String)
  testFiles : List (Nat × String)
  history : List (Nat × Bool × String)
  featureHistory : List (Nat × String)
  clock : Nat
  trace : List Act
deriving Repr

/-- The `main` local-variable initialisation (lines 285-287). -/
def initState : MState :=
  { phase := .loopTop
    version := 1
    code := none
    main_feature := "Initial implementation"
    simFile := 0
    maxAttempts := 0
    files := []
    testFiles := []
    history := []
    featureHistory := []
    clock := 0
    trace := [] }

/-- One step of `main`.  Each case cites the Python lines it embeds.
The `trace` field records, newest first, which externally visible
actions the program has performed. -/
def step (env : Nat → Ext) (s : MState) : MState :=
  match s.phase with
  | .loopTop =>
      -- Lines 290-295: only when version == 1 is the initial prompt
      -- sent; a None response exits.
      if s.version = 1 then
        match call_openai_api (env s.clock).api with
        | none =>
            { s with phase := .halted .initialGenFailed, clock := s.clock + 1
                     trace := .genInitial :: s.trace }
        | some c =>
            { s with phase := .saveSimPhase, code := some c, clock := s.clock + 1
                     trace := .genInitial :: s.trace }
      else
        { s with phase := .saveSimPhase }
  | .saveSimPhase =>
      -- Lines 297-304: sim_filename is recomputed from the current
      -- version, the candidate is persisted, and the fix budget is
      -- fixed at 10 for version 1 and 3 otherwise.  Writing a None
      -- code raises TypeError inside save_code_to_file, which its
      -- handler turns into a False return (halt), like any write error.
      match s.code with
      | none =>
          { s with phase := .halted .saveSimFailed, simFile := s.version
                   clock := s.clock + 1
                   trace := .saveSim s.version false :: s.trace }
      | some c =>
          if (env s.clock).saveOk then
            { s with phase := .simRun 0, simFile := s.version
                     maxAttempts := if s.version = 1 then 10 else 3
                     files := (s.version, c) :: s.files, clock := s.clock + 1
                     trace := .saveSim s.version true :: s.trace }
          else
            { s with phase := .halted .saveSimFailed, simFile := s.version
                     clock := s.clock + 1
                     trace := .saveSim s.version false :: s.trace }
  | .simRun attempts =>
      -- Lines 306-322: run the sandbox; `if not errors` treats None
      -- and the empty string alike as success.  On failure the
      -- attempt counter is bumped; reaching the budget aborts for
      -- version 1 and rolls back (decrement, re-read the previous
      -- file of the previous version) otherwise; below budget fixing follows.
      match run_simulation (env s.clock).sim with
      | none =>
          { s with phase := .afterSimLoop attempts, clock := s.clock + 1
                   trace := .runSim s.simFile :: s.trace }
      | some e =>
          if strIsEmpty e then
            { s with phase := .afterSimLoop attempts, clock := s.clock + 1
                     trace := .runSim s.simFile :: s.trace }
          else
            if s.maxAttempts ≤ attempts + 1 then
              if s.version = 1 then
                { s with phase := .halted .version1Exhausted, clock := s.clock + 1
                         trace := .runSim s.simFile :: s.trace }
              else
                match s.files.lookup (s.version - 1) with
                | none =>
                    { s with phase := .crashed "FileNotFoundError"
                             version := s.version - 1, clock := s.clock + 1
                             trace := .rollback s.version (s.version - 1) ::
                               .runSim s.simFile :: s.trace }
                | some src =>
                    { s with phase := .afterSimLoop (attempts + 1)
                             version := s.version - 1, code := some src
                             clock := s.clock + 1
                             trace := .rollback s.version (s.version - 1) ::
                               .runSim s.simFile :: s.trace }
            else
              { s with phase := .fixPhase (attempts + 1) e, clock := s.clock + 1
                       trace := .runSim s.simFile :: s.trace }
  | .fixPhase attempts errors =>
      -- Lines 324-327: request a fix, then persist it under the same
      -- sim_filename; a failed save (including the None-fix TypeError
      -- path) exits main.
      match call_openai_api (env s.clock).api with
      | none =>
          { s with phase := .halted .saveFixFailed, code := none
                   clock := s.clock + 2, trace := .fixSim errors :: s.trace }
      | some c =>
          if (env (s.clock + 1)).saveOk then
            { s with phase := .simRun attempts, code := some c
                     files := (s.simFile, c) :: s.files, clock := s.clock + 2
                     trace := .fixSim errors :: s.trace }
          else
            { s with phase := .halted .saveFixFailed, code := some c
                     clock := s.clock + 2, trace := .fixSim errors :: s.trace }
  | .afterSimLoop attempts =>
      -- Lines 329-330: `continue` restarts the outer loop when the
      -- budget was exhausted and the (already decremented) version is
      -- still above 1; otherwise control falls through to unit-test
      -- creation.
      if s.maxAttempts ≤ attempts ∧ 1 < s.version then
        { s with phase := .loopTop }
      else
        { s with phase := .createTestsPhase }
  | .createTestsPhase =>
      -- Lines 333-338: generate tests for the current code (prompted
      -- with the stale sim_filename) and persist them under
      -- sim{version:04d}_test.py for the current version.
      match call_openai_api (env s.clock).api with
      | none =>
          { s with phase := .halted .saveTestsFailed, clock := s.clock + 2
                   trace := .createTests s.simFile :: s.trace }
      | some t =>
          if (env (s.clock + 1)).saveOk then
            { s with phase := .schedulePhase
                     testFiles := (s.version, t) :: s.testFiles
                     clock := s.clock + 2
                     trace := .createTests s.simFile :: s.trace }
          else
            { s with phase := .halted .saveTestsFailed, clock := s.clock + 2
                     trace := .createTests s.simFile :: s.trace }
  | .schedulePhase =>
      -- Lines 376-377 with determine_next_step (lines 251-263): log
      -- the history entry, pick analyze/improve uniformly, then
      -- increment the version counter.
      let isFix := strStartsWith s.main_feature "Fix errors"
      let summary := if isFix then strDrop s.main_feature 12 else strDrop s.main_feature 13
      let hist := (s.version, isFix, summary) :: s.history
      let fhist := if isFix then s.featureHistory else (s.version, summary) :: s.featureHistory
      if (env s.clock).choice then
        { s with phase := .analyzePhase, version := s.version + 1
                 history := hist, featureHistory := fhist, clock := s.clock + 1
                 trace := .schedule s.version :: s.trace }
      else
        { s with phase := .improvePhase, version := s.version + 1
                 history := hist, featureHistory := fhist, clock := s.clock + 1
                 trace := .schedule s.version :: s.trace }
  | .analyzePhase =>
      -- Lines 380-387: a None analysis makes `.lower()` raise an
      -- uncaught AttributeError; the sentinel reverts the version
      -- increment with no fix request; anything else requests a fix
      -- from the analysis text and keeps the version advanced.
      match call_openai_api (env s.clock).api with
      | none =>
          { s with phase := .crashed "AttributeError: NoneType object has no attribute lower"
                   clock := s.clock + 1, trace := .analyzeCall :: s.trace }
      | some a =>
          if strLower a = "no errors" then
            { s with phase := .loopTop, version := s.version - 1
                     clock := s.clock + 1, trace := .analyzeCall :: s.trace }
          else
            { s with phase := .loopTop
                     main_feature := "Fix errors: " ++ strTake a 100 ++ "..."
                     code := call_openai_api (env (s.clock + 1)).api
                     clock := s.clock + 2
                     trace := .fixAfterAnalysis a :: .analyzeCall :: s.trace }
  | .improvePhase =>
      -- Lines 389-394: suggest, choose, design, implement in
      -- sequence; a None best_feature makes the slice at line 391
      -- raise an uncaught TypeError.
      let _newFeatures := call_openai_api (env s.clock).api
      match call_openai_api (env (s.clock + 1)).api with
      | none =>
          { s with phase := .crashed "TypeError: NoneType object is not subscriptable"
                   clock := s.clock + 2, trace := .improveCalls :: s.trace }
      | some b =>
          { s with phase := .loopTop
                   main_feature := "New feature: " ++ strTake b 100 ++ "..."
                   code := call_openai_api (env (s.clock + 3)).api
                   clock := s.clock + 4
                   trace := .improveCalls :: s.trace }
  | .halted _ => s
  | .crashed _ => s

/-- Iterated stepping from an arbitrary state. -/
def steps (env : Nat → Ext) : Nat → MState → MState
  | 0, s => s
  | n + 1, s => steps env n (step env s)

/-- A whole run of `main`: `n` machine steps from the initial state. -/
def run (env : Nat → Ext) (n : Nat) : MState :=
  steps env n initState

/-! ## Trace observations and concrete scenarios -/

def isRollbackAct : Act → Bool
  | .rollback _ _ => true
  | _ => false

def isScheduleAct : Act → Bool
  | .schedule _ => true
  | _ => false

def isRunSimAct : Act → Bool
  | .runSim _ => true
  | _ => false

def isCreateTestsAct : Act → Bool
  | .createTests _ => true
  | _ => false

/-- The part of the list strictly after the first element satisfying
`p` (the whole list has no such element). -/
def afterFirst (p : Act → Bool) : List Act → List Act
  | [] => []
  | a :: l => if p a then l else afterFirst p l

/-- Environment driving the rollback scenario: versions 1 and 2 run
clean, version 3 fails its sandbox run on all three budgeted attempts
(external-call clocks 16, 19 and 22); every completion succeeds with
the text "bug" (never the sentinel), every save succeeds, and the
scheduler always picks the analyze branch. -/
def rollbackScenarioEnv : Nat → Ext := fun k =>
  { api := Except.ok "bug"
    saveOk := true
    sim := if k = 16 ∨ k = 19 ∨ k = 22 then .exited 1 "boom" else .exited 0 ""
    choice := true }

/-- Environment in which every sandbox run fails with a Traceback,
while completions and saves always succeed. -/
def allFailEnv : Nat → Ext := fun _ =>
  { api := Except.ok "cand"
    saveOk := true
    sim := .exited 1 "Traceback"
    choice := true }

/-- Environment whose completions always return the mixed-case
sentinel. -/
def sentinelEnv : Nat → Ext := fun _ =>
  { api := Except.ok "No Errors"
    saveOk := true
    sim := .exited 0 ""
    choice := true }

/-- Environment whose completion calls always raise. -/
def apiDownEnv : Nat → Ext := fun _ =>
  { api := Except.error "rate limited"
    saveOk := true
    sim := .exited 0 ""
    choice := true }

/-- A state about to roll back: version 3 in its fix loop with two
failed attempts already counted and versions 1-3 persisted. -/
def preRollbackState : MState :=
  { initState with
    phase := .simRun 2
    version := 3
    maxAttempts := 3
    simFile := 3
    code := some "v3 code"
    files := [(3, "v3 code"), (2, "v2 code"), (1, "v1 code")] }

/-- A state at the scheduling point for version 2. -/
def scheduleState : MState :=
  { initState with
    phase := .schedulePhase
    version := 2
    code := some "v2 code"
    main_feature := "New feature: niceness..." }

/-- A state at the error-analysis point. -/
def analyzeState : MState :=
  { initState with
    phase := .analyzePhase
    version := 3
    code := some "v2 code" }

/-- A design-step prompt template with both placeholders. -/
def designTemplate : List Piece :=
  [.lit "Design the feature ", .hole "feature", .lit " for the code ", .hole "code"]

/-- The test file of the specification example: `test_a` and `test_b`
with a non-prefixed helper interleaved, all bodies flat. -/
def specExampleBody : List PyStmt :=
  [.functionDef "test_a" [.other], .functionDef "helper" [.other],
   .functionDef "test_b" [.other]]

/-! ## General machine lemmas -/

theorem step_of_halted (env : Nat → Ext) (s : MState) (r : HaltReason)
    (h : s.phase = .halted r) : step env s = s := by
  unfold step
  rw [h]

theorem steps_of_halted (env : Nat → Ext) (s : MState) (r : HaltReason)
    (h : s.phase = .halted r) : ∀ m, steps env m s = s := by
  intro m
  induction m with
  | zero => rfl
  | succ m ih =>
    show steps env m (step env s) = s
    rw [step_of_halted env s r h, ih]

theorem steps_add (env : Nat → Ext) :
    ∀ (m j : Nat) (s : MState), steps env (m + j) s = steps env j (steps env m s) := by
  intro m
  induction m with
  | zero => intro j s; rw [Nat.zero_add]; rfl
  | succ m ih =>
    intro j s
    have h : m + 1 + j = (m + j) + 1 := by omega
    rw [h]
    show steps env (m + j) (step env s) = steps env j (steps env m (step env s))
    exact ih j (step env s)

/-! Single-transition characterizations used to chain machine steps. -/

theorem step_loopTop_v1_ok (env : Nat → Ext) (s : MState) (c : String)
    (hphase : s.phase = .loopTop) (hv : s.version = 1)
    (hc : (env s.clock).api = Except.ok c) :
    step env s = { s with
      phase := .saveSimPhase
      code := some c
      clock := s.clock + 1
      trace := .genInitial :: s.trace } := by
  unfold step
  rw [hphase]
  simp [hv, hc, call_openai_api]

theorem step_saveSim_ok (env : Nat → Ext) (s : MState) (c : String)
    (hphase : s.phase = .saveSimPhase) (hcode : s.code = some c)
    (hsv : (env s.clock).saveOk = true) :
    step env s = { s with
      phase := .simRun 0
      simFile := s.version
      maxAttempts := if s.version = 1 then 10 else 3
      files := (s.version, c) :: s.files
      clock := s.clock + 1
      trace := .saveSim s.version true :: s.trace } := by
  unfold step
  rw [hphase, hcode]
  simp [hsv]

theorem step_simRun_fail_exhaust_v1 (env : Nat → Ext) (s : MState) (a : Nat) (e : String)
    (hphase : s.phase = .simRun a)
    (he : run_simulation (env s.clock).sim = some e) (hne : strIsEmpty e = false)
    (hbud : s.maxAttempts ≤ a + 1) (hv : s.version = 1) :
    step env s = { s with
      phase := .halted .version1Exhausted
      clock := s.clock + 1
      trace := .runSim s.simFile :: s.trace } := by
  unfold step
  rw [hphase, he]
  simp [hne, hbud, hv]

theorem step_simRun_fail_below_budget (env : Nat → Ext) (s : MState) (a : Nat) (e : String)
    (hphase : s.phase = .simRun a)
    (he : run_simulation (env s.clock).sim = some e) (hne : strIsEmpty e = false)
    (hbud : ¬ s.maxAttempts ≤ a + 1) :
    step env s = { s with
      phase := .fixPhase (a + 1) e
      clock := s.clock + 1
      trace := .runSim s.simFile :: s.trace } := by
  unfold step
  rw [hphase, he]
  simp [hne, hbud]

theorem step_fixPhase_ok (env : Nat → Ext) (s : MState) (a : Nat) (e c : String)
    (hphase : s.phase = .fixPhase a e)
    (hc : (env s.clock).api = Except.ok c)
    (hsv : (env (s.clock + 1)).saveOk = true) :
    step env s = { s with
      phase := .simRun a
      code := some c
      files := (s.simFile, c) :: s.files
      clock := s.clock + 2
      trace := .fixSim e :: s.trace } := by
  unfold step
  rw [hphase, hc]
  simp [hsv, call_openai_api]

/-- With completions and saves succeeding and every sandbox run
failing, a version-1 fix loop that still has `n` of its 10 attempts
ahead of it reaches the exhaustion halt, adds no history entry and
schedules nothing. -/
theorem simloop_v1_exhausts (env : Nat → Ext)
    (hapi : ∀ k, ∃ c, (env k).api = Except.ok c)
    (hsave : ∀ k, (env k).saveOk = true)
    (hsim : ∀ k, ∃ e, run_simulation (env k).sim = some e ∧ strIsEmpty e = false) :
    ∀ (n : Nat) (s : MState) (a : Nat), s.phase = .simRun a → s.version = 1 →
      s.maxAttempts = 10 → a + n = 10 → 1 ≤ n →
      ∃ m, (steps env m s).phase = .halted .version1Exhausted ∧
        (steps env m s).history = s.history ∧
        (∀ v, Act.schedule v ∈ (steps env m s).trace → Act.schedule v ∈ s.trace) := by
  intro n
  induction n with
  | zero => intro s a _ _ _ hsum h1; omega
  | succ n ih =>
    intro s a hphase hver hmax hsum _
    obtain ⟨e, he, hne⟩ := hsim s.clock
    by_cases hlast : s.maxAttempts ≤ a + 1
    · have h1 := step_simRun_fail_exhaust_v1 env s a e hphase he hne hlast hver
      refine ⟨1, ?_, ?_, ?_⟩
      · show (step env s).phase = _
        rw [h1]
      · show (step env s).history = _
        rw [h1]
      · intro v hv
        have hv2 : Act.schedule v ∈ (step env s).trace := hv
        rw [h1] at hv2
        simpa using hv2
    · have h1 := step_simRun_fail_below_budget env s a e hphase he hne hlast
      obtain ⟨c, hc⟩ := hapi (s.clock + 1)
      have h2 := step_fixPhase_ok env (step env s) (a + 1) e c
        (by rw [h1]) (by rw [h1]; simpa using hc)
        (by rw [h1]; simpa using hsave (s.clock + 1 + 1))
      have hn1 : 1 ≤ n := by omega
      obtain ⟨m, hm1, hm2, hm3⟩ := ih (step env (step env s)) (a + 1)
        (by rw [h2]) (by rw [h2, h1]; exact hver) (by rw [h2, h1]; exact hmax)
        (by omega) hn1
      refine ⟨m + 2, ?_, ?_, ?_⟩
      · show (steps env m (step env (step env s))).phase = _
        exact hm1
      · show (steps env m (step env (step env s))).history = _
        rw [hm2, h2, h1]
      · intro v hv
        have hv2 := hm3 v hv
        rw [h2, h1] at hv2
        simpa using hv2

/-! Syntax-tree size and cleanliness lemmas for the `ast.walk`
embedding. -/

theorem stmtSize_pos (s : PyStmt) : 1 ≤ stmtSize s := by
  cases s <;> simp [stmtSize]

theorem stmtListSize_append (l₁ l₂ : List PyStmt) :
    stmtListSize (l₁ ++ l₂) = stmtListSize l₁ + stmtListSize l₂ := by
  induction l₁ with
  | nil => simp [stmtListSize]
  | cons s r ih =>
    simp [stmtListSize, ih]
    omega

theorem stmtListSize_children (s : PyStmt) :
    stmtListSize s.children + 1 ≤ stmtSize s := by
  cases s <;> simp [PyStmt.children, stmtSize, stmtListSize] <;> omega

theorem cleanTree_testDefName {s : PyStmt} (h : cleanTree s = true) :
    testDefName s = none := by
  cases s with
  | functionDef n b =>
    simp [cleanTree, Bool.and_eq_true] at h
    simp [testDefName, h.1]
  | classDef n b => rfl
  | other => rfl

theorem cleanTree_children {s : PyStmt} (h : cleanTree s = true) :
    cleanForest s.children = true := by
  cases s with
  | functionDef n b =>
    simp [cleanTree, Bool.and_eq_true] at h
    simpa [PyStmt.children] using h.2
  | classDef n b => simpa [cleanTree, PyStmt.children] using h
  | other => rfl

theorem cleanForest_mem (l : List PyStmt) (t : PyStmt)
    (hl : cleanForest l = true) (ht : t ∈ l) : cleanTree t = true := by
  induction l with
  | nil => cases ht
  | cons s r ih =>
    simp [cleanForest, Bool.and_eq_true] at hl
    rcases List.mem_cons.mp ht with h | h
    · subst h; exact hl.1
    · exact ih hl.2 h

theorem cleanForest_filterMap (l : List PyStmt) (h : cleanForest l = true) :
    l.filterMap testDefName = [] := by
  induction l with
  | nil => rfl
  | cons s r ih =>
    simp [cleanForest, Bool.and_eq_true] at h
    simp [List.filterMap_cons, cleanTree_testDefName h.1, ih h.2]

theorem cleanForest_append (l₁ l₂ : List PyStmt) :
    cleanForest (l₁ ++ l₂) = (cleanForest l₁ && cleanForest l₂) := by
  induction l₁ with
  | nil => simp [cleanForest]
  | cons s r ih => simp [cleanForest, ih, Bool.and_assoc]

/-- A breadth-first walk over a forest containing no `test_` function
definitions collects nothing. -/
theorem bfsWalkAux_clean_filterMap :
    ∀ (n : Nat) (q : List PyStmt), cleanForest q = true →
      (bfsWalkAux n q).filterMap testDefName = [] := by
  intro n
  induction n with
  | zero => intro q _; cases q <;> rfl
  | succ n ih =>
    intro q hq
    cases q with
    | nil => rfl
    | cons s rest =>
      simp [cleanForest, Bool.and_eq_true] at hq
      have hch : cleanForest (rest ++ s.children) = true := by
        rw [cleanForest_append]
        simp [hq.2, cleanTree_children hq.1]
      simp [bfsWalkAux, List.filterMap_cons, cleanTree_testDefName hq.1, ih _ hch]

/-- When no `test_` function definition occurs strictly below the
queue entries, the breadth-first collection reduces to the top-level
collection in queue order. -/
theorem bfsWalkAux_filterMap_toplevel :
    ∀ (n : Nat) (q : List PyStmt), stmtListSize q ≤ n →
      (∀ s ∈ q, cleanForest s.children = true) →
      (bfsWalkAux n q).filterMap testDefName = q.filterMap testDefName := by
  intro n
  induction n with
  | zero =>
    intro q hle _
    cases q with
    | nil => rfl
    | cons s rest =>
      exfalso
      have h1 := stmtSize_pos s
      simp [stmtListSize] at hle
      omega
  | succ n ih =>
    intro q hle hcl
    cases q with
    | nil => rfl
    | cons s rest =>
      have hs := hcl s (List.mem_cons_self s rest)
      have hsz : stmtListSize (rest ++ s.children) ≤ n := by
        rw [stmtListSize_append]
        have h1 := stmtListSize_children s
        simp [stmtListSize] at hle
        omega
      have hcl2 : ∀ t ∈ rest ++ s.children, cleanForest t.children = true := by
        intro t ht
        rcases List.mem_append.mp ht with h | h
        · exact hcl t (List.mem_cons_of_mem s h)
        · exact cleanTree_children (cleanForest_mem s.children t hs h)
      have hnone := cleanForest_filterMap s.children hs
      cases hname : testDefName s with
      | none =>
        simp [bfsWalkAux, List.filterMap_cons, hname, ih _ hsz hcl2,
          List.filterMap_append, hnone]
      | some nm =>
        simp [bfsWalkAux, List.filterMap_cons, hname, ih _ hsz hcl2,
          List.filterMap_append, hnone]

/-- One regex-substitution pass over text in which the pattern head
`def <name>` never occurs is the identity, for any fuel. -/
theorem subTestDefAux_no_occurrence (name : List Char) :
    ∀ (n : Nat) (s : List Char),
      occursL ('d' :: 'e' :: 'f' :: ' ' :: name) s = false →
      subTestDefAux name n s = s := by
  intro n
  induction n with
  | zero => intro s _; cases s <;> rfl
  | succ n ih =>
    intro s h
    cases s with
    | nil => rfl
    | cons c cs =>
      rw [occursL] at h
      have h2 := Bool.or_eq_false_iff.mp h
      simp [subTestDefAux, h2.1, ih cs h2.2]

/-- `remove_problematic_tests` with a single name whose `def <name>`
text is absent from the content leaves the content unchanged. -/
theorem remove_single_absent_noop (content name : String)
    (h : occursIn ("def " ++ name) content = false) :
    remove_problematic_tests content [name] = content := by
  have hdef : ("def " ++ name).toList = 'd' :: 'e' :: 'f' :: ' ' :: name.toList := by
    show ("def " ++ name).data = _
    rw [String.data_append]
    rfl
  have hlist : occursL ('d' :: 'e' :: 'f' :: ' ' :: name.toList) content.toList = false := by
    rw [occursIn, hdef] at h
    exact h
  unfold remove_problematic_tests
  simp only [List.foldl]
  rw [subTestDef, subTestDefAux_no_occurrence name.toList _ _ hlist]
  cases content
  rfl

/-! First-character lemmas: every non-short-circuit result of
`run_unit_tests` starts with the letter of a `Test`, `Error running`
or `Removed tests` line, never with the `Unable` of the parse
message. -/

theorem strHead_append_of_ne (a b : String) (h : strHead a ≠ none) :
    strHead (a ++ b) = strHead a := by
  show ((a ++ b).data).head? = (a.data).head?
  rw [String.data_append]
  cases hd : a.data with
  | nil =>
    exfalso
    apply h
    show (a.data).head? = none
    rw [hd]
    rfl
  | cons x xs => rfl

theorem strHead_prefix2 (a b : String) (x : Char) (hx : strHead a = some x) :
    strHead (a ++ b) = some x := by
  rw [strHead_append_of_ne a b (by rw [hx]; exact Option.some_ne_none x), hx]

theorem testFailureLine_head (m : String) (o : TestRunOutcome) (f : String)
    (h : testFailureLine m o = some f) :
    strHead f = some 'T' ∨ strHead f = some 'E' := by
  cases o with
  | finished rc err =>
    simp only [testFailureLine] at h
    by_cases hrc : rc ≠ 0
    · rw [if_pos hrc] at h
      cases h
      exact Or.inl (strHead_prefix2 _ err 'T'
        (strHead_prefix2 _ _ 'T' (strHead_prefix2 "Test " m 'T' (by decide))))
    · rw [if_neg hrc] at h
      cases h
  | timedOut => cases h
  | raisedExc e =>
    cases h
    exact Or.inr (strHead_prefix2 _ e 'E'
      (strHead_prefix2 _ _ 'E' (strHead_prefix2 "Error running test " m 'E' (by decide))))

theorem strIntercalate_failures_head (failures : List String) (tail : String) (c : Char)
    (htail : strHead tail = some c)
    (hall : ∀ f ∈ failures, ∃ x, strHead f = some x ∧ (x = 'T' ∨ x = 'E')) :
    ∃ x, strHead (strIntercalate "\n" (failures ++ [tail])) = some x ∧
      (x = 'T' ∨ x = 'E' ∨ x = c) := by
  cases failures with
  | nil =>
    refine ⟨c, ?_, Or.inr (Or.inr rfl)⟩
    simpa [strIntercalate] using htail
  | cons f rest =>
    obtain ⟨x, hx, hm⟩ := hall f (List.mem_cons_self f rest)
    refine ⟨x, ?_, hm.imp id Or.inl⟩
    show strHead (strIntercalate "\n" (f :: (rest ++ [tail]))) = some x
    cases hr : rest ++ [tail] with
    | nil => simp at hr
    | cons b t =>
      show strHead (f ++ "\n" ++ strIntercalate "\n" (b :: t)) = some x
      exact strHead_prefix2 _ _ x (strHead_prefix2 f "\n" x hx)

/-- With a nonempty extracted test list, `run_unit_tests` never
returns the unable-to-parse message: its only non-`none` result starts
with a `Test`, `Error running test` or `Removed tests` line. -/
theorem run_unit_tests_not_unable (src : PySource) (filename : String)
    (outcome : String → TestRunOutcome)
    (h : get_test_methods src ≠ []) :
    run_unit_tests src filename outcome ≠ some (unable_msg filename) := by
  have hfe : (get_test_methods src).isEmpty = false := by
    cases hm : get_test_methods src with
    | nil => exact absurd hm h
    | cons a l => rfl
  intro hcontra
  simp only [run_unit_tests, hfe, Bool.false_eq_true, if_false] at hcontra
  split at hcontra
  · exact Option.noConfusion hcontra
  · have hj := Option.some.inj hcontra
    have hall : ∀ f ∈ (get_test_methods src).filterMap
        (fun m => testFailureLine m (outcome m)),
        ∃ x, strHead f = some x ∧ (x = 'T' ∨ x = 'E') := by
      intro f hf
      obtain ⟨m, _, hline⟩ := List.mem_filterMap.mp hf
      obtain hx | hx := testFailureLine_head m (outcome m) f hline
      · exact ⟨'T', hx, Or.inl rfl⟩
      · exact ⟨'E', hx, Or.inr rfl⟩
    obtain ⟨x, hx, hm⟩ := strIntercalate_failures_head _
      ("Removed tests due to timeout: " ++
        strIntercalate ", " ((get_test_methods src).filter
          (fun m => isTimeoutOutcome (outcome m)))) 'R'
      (strHead_prefix2 _ _ 'R' (by decide)) hall
    rw [hj] at hx
    have hu : strHead (unable_msg filename) = some 'U' :=
      strHead_prefix2 _ _ 'U' (strHead_prefix2 _ filename 'U' (by decide))
    rw [hu] at hx
    have hux : ('U' : Char) = x := Option.some.inj hx
    rcases hm with hme | hme | hme <;> rw [hme] at hux <;> exact absurd hux (by decide)

/-! ## Claim theorems -/

/-- C4: `run_simulation` returns the success result (`none`) both when
the child exits with status zero and when it exceeds the wall-clock
timeout, so the controller cannot distinguish the two; a non-zero exit
returns the captured standard-error text as the failure detail, and a
failure to even launch the process returns the exception text as a
failure value instead of raising to the caller. -/
theorem run_simulation_outcome_classification :
    (∀ err, run_simulation (.exited 0 err) = none) ∧
    run_simulation .timedOut = none ∧
    (∀ rc err, rc ≠ 0 → run_simulation (.exited rc err) = some err) ∧
    (∀ e, run_simulation (.launchError e) = some e) := by
  refine ⟨fun err => by simp [run_simulation], rfl,
    fun rc err h => by simp [run_simulation, h], fun e => rfl⟩

/-- C4 witness: the classification evaluated at concrete outcomes. -/
theorem run_simulation_outcome_classification_witness :
    run_simulation (.exited 0 "captured text") = none ∧
    run_simulation .timedOut = none ∧
    run_simulation (.exited 2 "Traceback") = some "Traceback" ∧
    run_simulation (.launchError "interpreter missing") = some "interpreter missing" :=
  ⟨run_simulation_outcome_classification.1 "captured text",
   run_simulation_outcome_classification.2.1,
   run_simulation_outcome_classification.2.2.1 2 "Traceback" (by decide),
   run_simulation_outcome_classification.2.2.2 "interpreter missing"⟩

/-- C6 (code bug): `design_feature` computes the formatted prompt but
sends the UNFORMATTED template text to the collaborator (line 216
passes `prompt` where its siblings pass `formatted_prompt`), so the
design request incorporates neither the chosen best feature nor the
current code: on the template `Design the feature \x7bfeature\x7d for
the code \x7bcode\x7d` with feature `F` and code `C`, the prompt sent
is the raw template, differs from the formatted text, and contains
neither `F` nor `C`. -/
theorem design_prompt_not_formatted :
    (design_feature_call designTemplate "F" "C").prompt
      = "Design the feature \x7bfeature\x7d for the code \x7bcode\x7d" ∧
    pyFormat designTemplate [("feature", "F"), ("code", "C")]
      = "Design the feature F for the code C" ∧
    (design_feature_call designTemplate "F" "C").prompt
      ≠ pyFormat designTemplate [("feature", "F"), ("code", "C")] ∧
    occursIn "F" (design_feature_call designTemplate "F" "C").prompt = false ∧
    occursIn "C" (design_feature_call designTemplate "F" "C").prompt = false ∧
    (improveFeatureCalls (fun c => c.tag) [] [] designTemplate [] "" "C").get? 2
      = some (design_feature_call designTemplate "choose_feature" "C") := by
  decide

/-- C10: a failing collaborator call is caught inside
`call_openai_api` and surfaces as an absent (`none`) result instead of
an exception; when that happens to the error-analysis call, `main`
immediately calls `.lower()` on the absent result, which raises an
uncaught AttributeError and terminates the run. -/
theorem failed_analysis_crashes_run :
    (∀ e, call_openai_api (.error e) = none) ∧
    (∀ (env : Nat → Ext) (s : MState) (e : String),
      s.phase = .analyzePhase → (env s.clock).api = .error e →
      (step env s).phase =
        .crashed "AttributeError: NoneType object has no attribute lower") := by
  refine ⟨fun e => rfl, fun env s e hp ha => ?_⟩
  unfold step
  rw [hp, ha]
  rfl

/-- C10 witness: the crash at a concrete state and environment. -/
theorem failed_analysis_crashes_run_witness :
    call_openai_api (.error "rate limited") = none ∧
    (step apiDownEnv analyzeState).phase =
      .crashed "AttributeError: NoneType object has no attribute lower" :=
  ⟨failed_analysis_crashes_run.1 "rate limited",
   failed_analysis_crashes_run.2 apiDownEnv analyzeState "rate limited" rfl rfl⟩

/-- C2: at the transition where version N (N at least 2) has just
failed the sandbox attempt that exhausts its budget, the rollback sets
the current code to exactly the text held in the persisted file of
version N-1 as it was before the transition, obtained from the file
map (the history log plays no part), and the transition changes no
persisted file. -/
theorem rollback_restores_previous_version_source
    (env : Nat → Ext) (s : MState) (a : Nat) (e src : String)
    (hphase : s.phase = .simRun a)
    (hver : 2 ≤ s.version)
    (hsim : run_simulation (env s.clock).sim = some e)
    (hne : strIsEmpty e = false)
    (hbudget : s.maxAttempts ≤ a + 1)
    (hfile : s.files.lookup (s.version - 1) = some src) :
    (step env s).code = some src ∧
    (step env s).files = s.files ∧
    (step env s).testFiles = s.testFiles ∧
    (step env s).version = s.version - 1 ∧
    (step env s).phase = .afterSimLoop (a + 1) := by
  have hv1 : ¬ s.version = 1 := by omega
  unfold step
  rw [hphase, hsim]
  simp [hne, hbudget, hv1, hfile]

/-- C2 witness: the rollback transition evaluated with version 3
failing its last budgeted attempt; the code becomes the persisted
source of version 2. -/
theorem rollback_restores_previous_version_source_witness :
    (step allFailEnv preRollbackState).code = some "v2 code" ∧
    (step allFailEnv preRollbackState).files = preRollbackState.files ∧
    (step allFailEnv preRollbackState).testFiles = preRollbackState.testFiles ∧
    (step allFailEnv preRollbackState).version = 2 ∧
    (step allFailEnv preRollbackState).phase = .afterSimLoop 3 :=
  rollback_restores_previous_version_source allFailEnv preRollbackState 2 "Traceback" "v2 code"
    rfl (by decide) rfl (by decide) (by decide) (by decide)

/-- C1 (code bug): in the run where versions 1 and 2 are accepted and
version 3 then fails all three budgeted fix attempts, the machine does
NOT proceed directly to scheduling after rolling back to version 2:
between the rollback action and the next scheduling action it performs
a further sandbox run and a test generation for version 2, because the
`continue` at line 330 restarts the whole outer loop, contradicting
the adjacent comment that control should go to determine_next_step. -/
theorem rollback_reruns_sandbox_before_scheduling :
    (let tr := ((run rollbackScenarioEnv 28).trace).reverse
     let seg := (afterFirst isRollbackAct tr).takeWhile (fun a => !isScheduleAct a)
     tr.any isRollbackAct = true ∧
     seg.any isRunSimAct = true ∧
     seg.any isCreateTestsAct = true) := by
  decide

/-- C3: the fix-attempt budget fixed on entering the sandbox loop is
10 when the version number is 1 and 3 for every later version; and
when every sandbox attempt of version 1 fails (completions and saves
succeeding), the run reaches the version-1-exhausted halt having
recorded no history entry and no scheduling action, and no further
step changes the state. -/
theorem version1_budget_and_exhaustion_halt :
    (∀ (env : Nat → Ext) (s : MState) (c : String),
      s.phase = .saveSimPhase → s.code = some c → (env s.clock).saveOk = true →
      (step env s).maxAttempts = if s.version = 1 then 10 else 3) ∧
    (∀ env : Nat → Ext, (∀ k, ∃ c, (env k).api = Except.ok c) →
      (∀ k, (env k).saveOk = true) →
      (∀ k, ∃ e, run_simulation (env k).sim = some e ∧ strIsEmpty e = false) →
      ∃ m, (run env m).phase = .halted .version1Exhausted ∧
        (run env m).history = [] ∧
        (∀ v, Act.schedule v ∉ (run env m).trace) ∧
        (∀ j, run env (m + j) = run env m)) := by
  constructor
  · intro env s c hphase hcode hsv
    rw [step_saveSim_ok env s c hphase hcode hsv]
  · intro env hapi hsave hsim
    obtain ⟨c0, hc0⟩ := hapi 0
    have h0 := step_loopTop_v1_ok env initState c0 rfl rfl hc0
    have h1 := step_saveSim_ok env (step env initState) c0
      (by rw [h0]) (by rw [h0]) (by rw [h0]; exact hsave 1)
    have hmax : (step env (step env initState)).maxAttempts = 10 := by
      rw [h1, h0]
      rfl
    obtain ⟨m, hm1, hm2, hm3⟩ := simloop_v1_exhausts env hapi hsave hsim 10
      (step env (step env initState)) 0 (by rw [h1]) (by rw [h1, h0]; rfl) hmax
      rfl (by omega)
    refine ⟨m + 2, ?_, ?_, ?_, ?_⟩
    · show (steps env m (step env (step env initState))).phase = _
      exact hm1
    · show (steps env m (step env (step env initState))).history = _
      rw [hm2, h1, h0]
      rfl
    · intro v hv
      have hv2 := hm3 v hv
      rw [h1, h0] at hv2
      simp [initState] at hv2
    · intro j
      show run env ((m + 2) + j) = _
      rw [run, steps_add env (m + 2) j initState]
      exact steps_of_halted env (run env (m + 2)) .version1Exhausted hm1 j

/-- C3 witness: the budget formula evaluated at versions 1 and 2, and
the exhaustion halt under the environment where every sandbox run
fails. -/
theorem version1_budget_and_exhaustion_halt_witness :
    ((step allFailEnv { initState with phase := .saveSimPhase, code := some "v1" }).maxAttempts = 10) ∧
    ((step allFailEnv { initState with phase := .saveSimPhase, version := 2, code := some "v1" }).maxAttempts = 3) ∧
    (∃ m, (run allFailEnv m).phase = .halted .version1Exhausted ∧
      (run allFailEnv m).history = [] ∧
      (∀ v, Act.schedule v ∉ (run allFailEnv m).trace) ∧
      (∀ j, run allFailEnv (m + j) = run allFailEnv m)) := by
  refine ⟨?_, ?_, ?_⟩
  · have h := version1_budget_and_exhaustion_halt.1 allFailEnv
      { initState with phase := .saveSimPhase, code := some "v1" } "v1" rfl rfl rfl
    simpa using h
  · have h := version1_budget_and_exhaustion_halt.1 allFailEnv
      { initState with phase := .saveSimPhase, version := 2, code := some "v1" } "v1" rfl rfl rfl
    simpa using h
  · exact version1_budget_and_exhaustion_halt.2 allFailEnv
      (fun k => ⟨"cand", rfl⟩) (fun k => rfl)
      (fun k => ⟨"Traceback", rfl, by decide⟩)

/-- C5: from the scheduling point with the analyze branch chosen, the
cycle first advances the version counter; if the analysis response
equals the sentinel "no errors" case-insensitively, no fix request is
made and the version counter returns to its pre-cycle value, while any
other response triggers a fix request carrying the analysis text and
leaves the version advanced. -/
theorem analyze_sentinel_reverts_version
    (env : Nat → Ext) (s : MState) (a : String)
    (hphase : s.phase = .schedulePhase)
    (hchoice : (env s.clock).choice = true)
    (hana : (env (s.clock + 1)).api = Except.ok a) :
    ((step env s).version = s.version + 1 ∧ (step env s).phase = .analyzePhase) ∧
    (strLower a = "no errors" →
      (step env (step env s)).version = s.version ∧
      (step env (step env s)).code = s.code ∧
      (step env (step env s)).trace = .analyzeCall :: .schedule s.version :: s.trace) ∧
    (strLower a ≠ "no errors" →
      (step env (step env s)).version = s.version + 1 ∧
      (step env (step env s)).code = call_openai_api (env (s.clock + 2)).api ∧
      (step env (step env s)).trace =
        .fixAfterAnalysis a :: .analyzeCall :: .schedule s.version :: s.trace) := by
  obtain ⟨ph, ver, code, mf, sf, ma, fs, tfs, hist, fhist, ck, tr⟩ := s
  simp only at hphase hchoice hana ⊢
  subst hphase
  refine ⟨?_, fun hsent => ?_, fun hdiff => ?_⟩
  · constructor <;> simp [step, hchoice]
  · refine ⟨?_, ?_, ?_⟩ <;>
      simp [step, hchoice, hana, call_openai_api, hsent]
  · refine ⟨?_, ?_, ?_⟩ <;>
      simp [step, hchoice, hana, call_openai_api, hdiff]

/-- C5 witness: the sentinel case evaluated with the mixed-case
response "No Errors" at the concrete scheduling state for version 2:
the version first advances to 3, then returns to 2 with no fix action
recorded. -/
theorem analyze_sentinel_reverts_version_witness :
    (step sentinelEnv scheduleState).version = 3 ∧
    (step sentinelEnv (step sentinelEnv scheduleState)).version = 2 ∧
    (step sentinelEnv (step sentinelEnv scheduleState)).code = some "v2 code" ∧
    (step sentinelEnv (step sentinelEnv scheduleState)).trace =
      [.analyzeCall, .schedule 2] := by
  have h := analyze_sentinel_reverts_version sentinelEnv scheduleState "No Errors"
    rfl rfl rfl
  have hs := h.2.1 (by decide)
  exact ⟨h.1.1, hs.1, hs.2.1, hs.2.2⟩

/-- C7 counterexample: a syntactically valid test file containing one
non-`test_` function parses fine, yet the harness still returns the
single "unable to parse" message, because extraction returns the empty
list there too — the short-circuit is NOT reserved for parse
failures. -/
theorem unable_message_on_valid_testless_file :
    run_unit_tests (.parsed [.functionDef "helper" [.other]]) "sim0001_test.py"
        (fun _ => .finished 0 "") = some (unable_msg "sim0001_test.py") ∧
    get_test_methods (.parsed [.functionDef "helper" [.other]]) = [] := by
  decide

/-- C7 amended: the harness short-circuits with the single
human-readable "unable to parse" message exactly when the extracted
test-name list is empty — the message appears whenever the list is
empty and never when it is nonempty — and that list is empty both on
a parse failure and on a syntactically valid file with no
`test_`-prefixed functions — the code conflates the two cases. -/
theorem unable_message_iff_empty_extraction :
    (∀ lineno, get_test_methods (.parseFailure lineno) = []) ∧
    (∀ body, cleanForest body = true → get_test_methods (.parsed body) = []) ∧
    (∀ src filename outcome, get_test_methods src = [] →
      run_unit_tests src filename outcome = some (unable_msg filename)) ∧
    (∀ src filename outcome, get_test_methods src ≠ [] →
      run_unit_tests src filename outcome ≠ some (unable_msg filename)) := by
  refine ⟨fun _ => rfl, fun body hb => ?_, fun src filename outcome h => ?_,
    fun src filename outcome h => run_unit_tests_not_unable src filename outcome h⟩
  · unfold get_test_methods bfsWalk
    exact bfsWalkAux_clean_filterMap _ body hb
  · unfold run_unit_tests
    rw [h]
    rfl

/-- C7 witness: the amended statement evaluated on a parse failure, on
a valid test-free file, and — for the only-if direction — on a file
with one passing and one timing-out test. -/
theorem unable_message_iff_empty_extraction_witness :
    get_test_methods (.parseFailure 7) = [] ∧
    get_test_methods (.parsed [.functionDef "setup" [.other]]) = [] ∧
    run_unit_tests (.parseFailure 7) "sim0002_test.py" (fun _ => .timedOut)
      = some (unable_msg "sim0002_test.py") ∧
    run_unit_tests (.parsed [.functionDef "test_x" [.other]]) "sim0003_test.py"
      (fun _ => .timedOut) ≠ some (unable_msg "sim0003_test.py") :=
  ⟨unable_message_iff_empty_extraction.1 7,
   unable_message_iff_empty_extraction.2.1 [.functionDef "setup" [.other]] (by decide),
   unable_message_iff_empty_extraction.2.2.1 (.parseFailure 7) "sim0002_test.py"
     (fun _ => .timedOut) rfl,
   unable_message_iff_empty_extraction.2.2.2 (.parsed [.functionDef "test_x" [.other]])
     "sim0003_test.py" (fun _ => .timedOut) (by decide)⟩

/-- C8 counterexample: `ast.walk` visits every node of the tree, so a
`test_` method defined inside a class body is collected although it is
not a top-level function — extraction does not return exactly the
top-level `test_` functions. -/
theorem extraction_includes_class_methods :
    get_test_methods (.parsed [.classDef "SimTest" [.functionDef "test_m" []]])
      = ["test_m"] ∧
    topLevelTestMethods [.classDef "SimTest" [.functionDef "test_m" []]] = [] := by
  decide

/-- C8 amended: extraction collects every `test_`-prefixed function
definition anywhere in the syntax tree in breadth-first order; when no
`test_`-prefixed definition occurs strictly below the top level, the
result is exactly the top-level `test_` functions in source order,
regardless of interleaved non-prefixed definitions. -/
theorem extraction_toplevel_without_nested_tests
    (body : List PyStmt)
    (h : ∀ s ∈ body, cleanForest s.children = true) :
    get_test_methods (.parsed body) = topLevelTestMethods body := by
  unfold get_test_methods topLevelTestMethods bfsWalk
  exact bfsWalkAux_filterMap_toplevel (stmtListSize body) body le_rfl h

/-- C8 witness: the specification example `test_a`, `helper`,
`test_b` evaluated through the amended statement. -/
theorem extraction_toplevel_without_nested_tests_witness :
    get_test_methods (.parsed specExampleBody) = topLevelTestMethods specExampleBody ∧
    topLevelTestMethods specExampleBody = ["test_a", "test_b"] :=
  ⟨extraction_toplevel_without_nested_tests specExampleBody (by decide), by decide⟩

/-- C9 counterexample: the deletion pattern is the literal text
`def test_a` extended lazily to the next `def`, matched as a PREFIX,
so removing `test_a` from a file that defines `test_a` and `test_ab`
deletes both definitions — the other function definition is not left
intact (the result is the empty file). -/
theorem remove_tests_prefix_collision :
    remove_problematic_tests "def test_a(): pass\ndef test_ab(): pass" ["test_a"]
      = "" ∧
    occursIn "def test_ab" "def test_a(): pass\ndef test_ab(): pass" = true := by
  decide

/-- C9 amended: for each named test the text from `def <name>` up to
but not including the next occurrence of the literal characters `def`
(or end of file) is deleted, where matching is by literal prefix (a
definition whose name extends the given name is also deleted); on the
`test_slow`/`test_fast` file the named body disappears and `test_fast`
stays intact, and any name whose `def <name>` text does not occur in
the file is a no-op. -/
theorem remove_tests_textual_behavior :
    remove_problematic_tests
        "def test_slow(self):\n    pass\n\ndef test_fast(self):\n    pass"
        ["test_slow"]
      = "def test_fast(self):\n    pass" ∧
    (∀ content name, occursIn ("def " ++ name) content = false →
      remove_problematic_tests content [name] = content) :=
  ⟨by decide, fun content name h => remove_single_absent_noop content name h⟩

/-- C9 witness: the concrete deletion, and the no-op applied to the
repaired file (which also gives idempotence of the removal). -/
theorem remove_tests_textual_behavior_witness :
    remove_problematic_tests
        "def test_slow(self):\n    pass\n\ndef test_fast(self):\n    pass"
        ["test_slow"]
      = "def test_fast(self):\n    pass" ∧
    occursIn "def test_slow" "def test_fast(self):\n    pass" = false ∧
    remove_problematic_tests "def test_fast(self):\n    pass" ["test_slow"]
      = "def test_fast(self):\n    pass" :=
  ⟨remove_tests_textual_behavior.1, by decide,
   remove_tests_textual_behavior.2 "def test_fast(self):\n    pass" "test_slow" (by decide)⟩

end AutoImprover
